import Mathlib

/-!
Shallow embedding of the Student Profiling and Personalization Engine of the
Agent-minds repository, taken from
src/ml-models/personalization/student_profiler.py and
src/ml-models/doubt_clearing/doubt_resolver.py.

Modelling conventions:
- Python floats are modelled as exact rationals; float arithmetic in the
  source is modelled as exact arithmetic over the rationals, except where
  a square root or a natural logarithm appears, in which case the value is
  modelled in the real numbers.
- A pandas DataFrame built from a list of record dicts is modelled as a
  List AcademicRecord in the order supplied.  DataFrame.tail(n) (resp.
  head(n)) is the last (resp. first) n rows in the current row order.
  A column is present exactly when at least one record dict carries the
  key; rows without the key hold NaN in that column and pandas groupby
  drops NaN keys, which the model renders through Option fields and
  filterMap.
- df.sort_values is modelled as a stable sort.  The source (pandas
  default quicksort) leaves the relative order of tied keys unspecified,
  so the stable sort is one determinization of the source behaviour; no
  claim below depends on the order of tied keys.
- pandas groupby enumerates group keys in sorted key order; the model
  enumerates them in first-occurrence order.  The two differ only in
  which of several TIED weighted scores comes first in the subject
  ranking and in the enumeration order of the learning-gaps list, and no
  claim below depends on either.
- Series.std() is the sample standard deviation (ddof = 1); for a single
  row it is NaN.  The expression max(0, 100 - NaN) evaluates to 0 in
  Python (builtin max keeps the first argument when the comparison with
  NaN is false), so the consistency score of a single-record history is
  modelled directly as 0.
-/

/-- One academic record, from the source record dicts.  Fields not used by
any computation under proof (attempts, time_taken_minutes,
assessment_type) are omitted; assessment dates are modelled as natural
numbers ordered as the source timestamps are. -/
structure AcademicRecord where
  subject : String
  topic : Option String
  score : ℚ
  max_score : ℚ
  difficulty_level : Option String
  assessment_date : ℕ
deriving DecidableEq

/-- Mean of a list of rationals, sum / len as in pandas Series.mean.
Only ever applied to nonempty lists in the embedding (the source guards
the empty history before any mean is taken). -/
def mean (l : List ℚ) : ℚ := l.sum / l.length

/-- Scores column of a record list. -/
def scoresOf (records : List AcademicRecord) : List ℚ := records.map (·.score)

/-- DataFrame.head(n): first n rows in current order. -/
def firstN (n : ℕ) (l : List α) : List α := l.take n

/-- DataFrame.tail(n): last n rows in current order. -/
def lastN (n : ℕ) (l : List α) : List α := l.drop (l.length - n)

/-- df.sort_values on the assessment_date column, as a stable sort. -/
def sortByDate (records : List AcademicRecord) : List AcademicRecord :=
  List.insertionSort (fun a b => a.assessment_date ≤ b.assessment_date) records

/-- Embeds _calculate_improvement_rate: below two records the rate is 0.0,
otherwise the date-sorted tail-5 mean against the date-sorted head-5 mean,
divided by max(head mean, 1). -/
def calculate_improvement_rate (records : List AcademicRecord) : ℚ :=
  if records.length < 2 then 0
  else
    let sorted := sortByDate records
    let recent := mean (scoresOf (lastN 5 sorted))
    let older := mean (scoresOf (firstN 5 sorted))
    (recent - older) / max older 1

/-- Embeds the recent_performance expression of
_calculate_overall_performance: df.tail(5) mean when the history has at
least 5 rows, else the overall mean.  The source applies tail(5) to the
DataFrame in supplied row order; no sort by assessment_date has happened
at this point. -/
def recent_performance (records : List AcademicRecord) : ℚ :=
  if 5 ≤ records.length then mean (scoresOf (lastN 5 records))
  else mean (scoresOf records)

/-- Python int() applied to a rational: truncation toward zero. -/
def pytrunc (q : ℚ) : ℤ := if 0 ≤ q then ⌊q⌋ else ⌈q⌉

/-- Embeds _recommend_difficulty_level, with int() as truncation toward
zero. -/
def recommend_difficulty_level (records : List AcademicRecord) : ℤ :=
  let rp := recent_performance records
  let ir := calculate_improvement_rate records
  if 85 ≤ rp ∧ 0 < ir then min 5 (pytrunc ((rp - 60) / 10) + 1)
  else if 70 ≤ rp then max 2 (pytrunc ((rp - 50) / 15))
  else 1

/-- Embeds the closed form of the degree-1 least-squares slope that
np.polyfit(x, scores, 1)[0] computes for x = 0..n-1 (full-rank design,
ideal arithmetic). -/
def fitSlope (ys : List ℚ) : ℚ :=
  let n : ℚ := ys.length
  let xs : List ℚ := (List.range ys.length).map (fun i => (i : ℚ))
  let sx := xs.sum
  let sy := ys.sum
  let sxy := ((xs.zip ys).map (fun p => p.1 * p.2)).sum
  let sxx := (xs.map (fun x => x * x)).sum
  (n * sxy - sx * sy) / (n * sxx - sx * sx)

/-- Embeds _calculate_trend: fewer than two scores is stable, otherwise
classify the fitted slope against the +2 and -2 thresholds. -/
def calculate_trend (ys : List ℚ) : String :=
  if ys.length < 2 then "stable"
  else if 2 < fitSlope ys then "improving"
  else if fitSlope ys < -2 then "declining"
  else "stable"

/-- Sample variance with ddof = 1, the square of pandas Series.std; only
meaningful for two or more rows. -/
def sampleVar (records : List AcademicRecord) : ℚ :=
  let xs := scoresOf records
  let m := mean xs
  ((xs.map (fun x => (x - m) * (x - m))).sum) / (xs.length - 1)

/-- Sample standard deviation of the scores column, over the reals. -/
noncomputable def score_std (records : List AcademicRecord) : ℝ :=
  Real.sqrt (sampleVar records)

/-- Embeds _calculate_consistency: max(0, 100 - std).  For fewer than two
rows pandas std is NaN and the Python expression max(0, 100 - NaN)
evaluates to 0, modelled by the first branch. -/
noncomputable def calculate_consistency (records : List AcademicRecord) : ℝ :=
  if records.length ≤ 1 then 0
  else max 0 (100 - score_std records)

/- Concrete record lists used by the claims. -/

/-- A one-subject record with the given score and date, full marks 100. -/
def rec0 (subject : String) (score : ℚ) (date : ℕ) : AcademicRecord :=
  { subject := subject, topic := none, score := score, max_score := 100,
    difficulty_level := none, assessment_date := date }

/-- Ten records in date order: five scores of 15 then five scores of 90,
so the date-sorted head-5 mean is 15, the tail-5 mean is 90, the
improvement rate is (90 - 15) / 15 = 5 and recent performance is 90. -/
def recsLevel4 : List AcademicRecord :=
  [rec0 "m" 15 1, rec0 "m" 15 2, rec0 "m" 15 3, rec0 "m" 15 4, rec0 "m" 15 5,
   rec0 "m" 90 6, rec0 "m" 90 7, rec0 "m" 90 8, rec0 "m" 90 9, rec0 "m" 90 10]

/-- Five records all scoring 72: recent performance 72, improvement 0. -/
def recsLevel2 : List AcademicRecord :=
  [rec0 "m" 72 1, rec0 "m" 72 2, rec0 "m" 72 3, rec0 "m" 72 4, rec0 "m" 72 5]

/-- A single record scoring 50: recent performance 50. -/
def recsLevel1 : List AcademicRecord := [rec0 "m" 50 1]

/-- Six records supplied in reverse date order: the single 100 carries the
latest date but is supplied first, so the last five in supplied order all
score 0 while the last five in date order include the 100. -/
def recsOutOfOrder : List AcademicRecord :=
  [rec0 "m" 100 6, rec0 "m" 0 5, rec0 "m" 0 4, rec0 "m" 0 3,
   rec0 "m" 0 2, rec0 "m" 0 1]

/-- A single well-formed record scoring 140 out of 200. -/
def recHighScale : AcademicRecord :=
  { subject := "m", topic := none, score := 140, max_score := 200,
    difficulty_level := none, assessment_date := 1 }

/-- Keys in first-occurrence order, skipping keys already seen; the
helper behind the groupby key enumeration of the model. -/
def uniqAux (seen : List String) : List String → List String
  | [] => []
  | x :: xs => if x ∈ seen then uniqAux seen xs else x :: uniqAux (x :: seen) xs

/-- Distinct keys of a column in first-occurrence order. -/
def uniq (l : List String) : List String := uniqAux [] l

/-- Distinct subjects of a record list. -/
def subjectsOf (records : List AcademicRecord) : List String :=
  uniq (records.map (·.subject))

/-- Scores of one subject group, as in groupby on the subject column. -/
def subjScores (records : List AcademicRecord) (s : String) : List ℚ :=
  (records.filter (fun r => r.subject = s)).map (·.score)

/-- Mean score of one subject group. -/
def subjMean (records : List AcademicRecord) (s : String) : ℚ :=
  mean (subjScores records s)

/-- One row of the per-subject aggregation of _identify_subject_strengths:
the subject, the column named mean (avg here) and the column named count
(cnt here). -/
structure SubjStat where
  subject : String
  avg : ℚ
  cnt : ℕ
deriving DecidableEq

/-- The aggregation rows, one per distinct subject. -/
def subjectStats (records : List AcademicRecord) : List SubjStat :=
  (subjectsOf records).map
    (fun s => ⟨s, subjMean records s, (subjScores records s).length⟩)

/-- Argument of the logarithm in the weighted score: count + 1. -/
def nbase (st : SubjStat) : ℕ := st.cnt + 1

/-- Sign of the weighted score avg * ln(cnt + 1): zero when the group is
empty (ln 1 = 0), otherwise the sign of the mean. -/
def wsign (st : SubjStat) : ℤ :=
  if st.cnt = 0 then 0 else if 0 < st.avg then 1 else if st.avg < 0 then -1 else 0

/-- Exact comparison: wge a b is true exactly when the weighted score
avg * ln(cnt + 1) of a is at least that of b.  With equal nonzero signs
the comparison of m1 * ln n1 against m2 * ln n2 is carried out exactly as
a comparison of natural powers, clearing the rational denominators into
the exponents; the bridge theorem wge_iff below proves this agrees with
the real-number comparison the source performs in floating point. -/
def wge (a b : SubjStat) : Bool :=
  if wsign b < wsign a then true
  else if wsign a < wsign b then false
  else if wsign a = 1 then
    decide ((nbase b) ^ (b.avg.num.toNat * a.avg.den) ≤ (nbase a) ^ (a.avg.num.toNat * b.avg.den))
  else if wsign a = -1 then
    decide ((nbase a) ^ ((-a.avg.num).toNat * b.avg.den) ≤ (nbase b) ^ ((-b.avg.num).toNat * a.avg.den))
  else true

/-- The weighted-descending order relation on aggregation rows. -/
def wrel (a b : SubjStat) : Prop := wge a b = true

instance : DecidableRel wrel := fun a b => inferInstanceAs (Decidable (wge a b = true))

/-- The rows of the per-subject aggregation after
sort_values(weighted_score, ascending=False), as a stable sort under the
weighted-descending relation. -/
def ranking (records : List AcademicRecord) : List SubjStat :=
  List.insertionSort wrel (subjectStats records)

/-- Embeds the strengths list of _identify_subject_strengths: head(3) of
the descending ranking. -/
def strengths (records : List AcademicRecord) : List String :=
  (firstN 3 (ranking records)).map (·.subject)

/-- Embeds the weaknesses list of _identify_subject_strengths: tail(2) of
the descending ranking, still in descending order. -/
def weaknesses (records : List AcademicRecord) : List String :=
  (lastN 2 (ranking records)).map (·.subject)

/-- Embeds the subject_scores records list: subject and mean pairs in the
sorted row order. -/
def subject_scores_list (records : List AcademicRecord) : List (String × ℚ) :=
  (ranking records).map (fun st => (st.subject, st.avg))

/-- The real weighted score avg * ln(cnt + 1) of one aggregation row,
matching the numpy expression mean * np.log(count + 1). -/
noncomputable def weight (st : SubjStat) : ℝ := (st.avg : ℝ) * Real.log (nbase st)

/-- One learning gap entry of _identify_learning_gaps. -/
structure LearningGap where
  subject : String
  weak_topics : List String
  average_score : ℚ
  priority : String
deriving DecidableEq

/-- Scores of the rows of one topic group inside a subject slice. -/
def topicScores (subjRecs : List AcademicRecord) (t : String) : List ℚ :=
  (subjRecs.filter (fun r => r.topic = some t)).map (·.score)

/-- Embeds _identify_learning_gaps.  The source appends a gap entry for
each subject averaging below 70, but only inside a guard that the topic
column exists; when no record dict carries a topic key the column is
absent and the gaps list stays empty.  Topic groups with NaN keys (rows
without a topic) are dropped by groupby. -/
def identify_learning_gaps (records : List AcademicRecord) : List LearningGap :=
  if records.all (fun r => r.topic = none) then []
  else
    ((subjectsOf records).filter (fun s => subjMean records s < 70)).map (fun s =>
      let subjRecs := records.filter (fun r => r.subject = s)
      let topics := uniq (subjRecs.filterMap (·.topic))
      { subject := s,
        weak_topics := topics.filter (fun t => mean (topicScores subjRecs t) < 65),
        average_score := subjMean records s,
        priority := if subjMean records s < 60 then "high" else "medium" })

/-- Distinct difficulty keys; rows without a difficulty are NaN and are
dropped by groupby. -/
def difficultyKeys (records : List AcademicRecord) : List String :=
  uniq (records.filterMap (·.difficulty_level))

/-- Mean score of one difficulty group. -/
def diffMean (records : List AcademicRecord) (d : String) : ℚ :=
  mean ((records.filter (fun r => r.difficulty_level = some d)).map (·.score))

/-- Series.idxmax over the listed keys: the first key attaining the
largest value. -/
def argmaxQ (f : String → ℚ) (l : List String) : Option String :=
  l.foldl (fun acc d =>
    match acc with
    | none => some d
    | some b => if f b < f d then some d else acc) none

/-- Embeds _find_optimal_difficulty together with the column-presence
guard of _assess_difficulty_preferences: no difficulty data means
medium; otherwise idxmax over the groups averaging at least 70 when any
exist, else idxmax over all groups. -/
def find_optimal_difficulty (records : List AcademicRecord) : String :=
  let ds := difficultyKeys records
  if ds.isEmpty then "medium"
  else
    let good := ds.filter (fun d => 70 ≤ diffMean records d)
    if good.isEmpty then (argmaxQ (diffMean records) ds).getD "medium"
    else (argmaxQ (diffMean records) good).getD "medium"

/-- The analysis object returned by analyze_academic_history.  Fields the
source only returns in the nonempty branch are Options, none in the
default profile; score_std is also none for a single row, where pandas
std is NaN.  Source output fields no claim refers to (volatility,
peak_performance, lowest_performance, difficulty_scores,
challenge_tolerance, study_patterns) are not modelled. -/
structure ProfileAnalysis where
  average_score : ℚ
  score_std : Option ℝ
  improvement_rate : ℚ
  consistency_score : Option ℝ
  recent_performance : Option ℚ
  strengths : List String
  weaknesses : List String
  subject_scores : Option (List (String × ℚ))
  recent_trend : String
  overall_trend : String
  optimal_difficulty : String
  recommended_level : ℤ
  learning_gaps : List LearningGap

/-- Embeds _default_profile, the literal returned for an empty history. -/
def default_profile : ProfileAnalysis :=
  { average_score := 50, score_std := none, improvement_rate := 0,
    consistency_score := none, recent_performance := none,
    strengths := [], weaknesses := [], subject_scores := none,
    recent_trend := "stable", overall_trend := "stable",
    optimal_difficulty := "medium", recommended_level := 2,
    learning_gaps := [] }

/-- Embeds analyze_academic_history: the default profile for an empty
history, otherwise the assembled analysis.  The overall-performance and
difficulty-recommendation steps see the DataFrame in supplied row order;
only the trend analysis and the improvement rate sort by date. -/
noncomputable def analyze_academic_history (records : List AcademicRecord) : ProfileAnalysis :=
  if records = [] then default_profile
  else
    { average_score := mean (scoresOf records),
      score_std := if records.length < 2 then none else some (score_std records),
      improvement_rate := calculate_improvement_rate records,
      consistency_score := some (calculate_consistency records),
      recent_performance := some (recent_performance records),
      strengths := strengths records,
      weaknesses := weaknesses records,
      subject_scores := some (subject_scores_list records),
      recent_trend := calculate_trend (scoresOf (lastN 10 (sortByDate records))),
      overall_trend := calculate_trend (scoresOf (sortByDate records)),
      optimal_difficulty := find_optimal_difficulty records,
      recommended_level := recommend_difficulty_level records,
      learning_gaps := identify_learning_gaps records }

/-- The question analysis fields _determine_response_strategy reads. -/
structure QuestionAnalysis where
  question_type : String
  complexity_level : String

/-- The student profile fields _determine_response_strategy reads; the
source falls back to visual and 50 when the keys are absent, modelled by
the fields always being present. -/
structure DoubtStudentProfile where
  learning_style : String
  current_level : ℚ

/-- The response strategy dict of doubt_resolver.py.  The
include_diagrams key exists only after the visual override, modelled as
an Option. -/
structure ResponseStrategy where
  approach : String
  explanation_style : String
  include_examples : Bool
  use_analogies : Bool
  provide_practice : Bool
  include_diagrams : Option Bool
deriving DecidableEq

/-- Embeds _determine_response_strategy of doubt_resolver.py: defaults,
then the question-type elif chain, then the learning-style elif chain,
then the complexity escalation. -/
def determine_response_strategy (qa : QuestionAnalysis) (profile : DoubtStudentProfile) :
    ResponseStrategy :=
  let base : ResponseStrategy :=
    { approach := "socratic", explanation_style := "detailed",
      include_examples := true, use_analogies := false,
      provide_practice := false, include_diagrams := none }
  let afterType :=
    if qa.question_type = "definition" then
      { base with approach := "direct", explanation_style := "detailed" }
    else if qa.question_type = "procedure" then
      { base with explanation_style := "step_by_step", include_examples := true }
    else if qa.question_type = "explanation" then
      { base with approach := "socratic", use_analogies := true }
    else base
  let afterStyle :=
    if profile.learning_style = "visual" then
      { afterType with include_diagrams := some true }
    else if profile.learning_style = "kinesthetic" then
      { afterType with provide_practice := true }
    else afterType
  if qa.complexity_level = "complex" ∧ profile.current_level < 70 then
    { afterStyle with explanation_style := "step_by_step", use_analogies := true }
  else afterStyle

/-- Ten records of subject A averaging 80 and one record of subject B
scoring 85: the weighted score of A, 80 ln 11, exceeds that of B,
85 ln 2, although the raw mean of B is larger. -/
def recsWeighted : List AcademicRecord :=
  [rec0 "A" 80 1, rec0 "A" 80 2, rec0 "A" 80 3, rec0 "A" 80 4, rec0 "A" 80 5,
   rec0 "A" 80 6, rec0 "A" 80 7, rec0 "A" 80 8, rec0 "A" 80 9, rec0 "A" 80 10,
   rec0 "B" 85 11]

/-- Three subjects with one record each, scores 90, 50 and 10, so the
descending weighted ranking is a, b, c. -/
def recsThreeSubj : List AcademicRecord :=
  [rec0 "a" 90 1, rec0 "b" 50 2, rec0 "c" 10 3]

/-- Two records of the single subject s. -/
def recsOneSubj : List AcademicRecord := [rec0 "s" 40 1, rec0 "s" 80 2]

/-- Two records of one subject, scores 30 and 70. -/
def recsPair : List AcademicRecord := [rec0 "m" 30 1, rec0 "m" 70 2]

/-- A question analysis and a profile triggering the complexity
escalation of the response strategy. -/
def qaComplex : QuestionAnalysis := { question_type := "procedure", complexity_level := "complex" }

/-- A visual learner below level 70. -/
def weakProfile : DoubtStudentProfile := { learning_style := "visual", current_level := 50 }

/-- Comparison of natural powers matches comparison of the scaled
logarithms of the bases. -/
theorem natPow_le_iff_log (x y p q : ℕ) (hx : 1 ≤ x) (hy : 1 ≤ y) :
    x ^ p ≤ y ^ q ↔ (p : ℝ) * Real.log x ≤ (q : ℝ) * Real.log y := by
  have hx' : (0:ℝ) < (x:ℝ) := by exact_mod_cast hx
  have hy' : (0:ℝ) < (y:ℝ) := by exact_mod_cast hy
  rw [← Real.log_pow, ← Real.log_pow,
    Real.log_le_log_iff (by positivity) (by positivity)]
  exact_mod_cast Iff.rfl

/-- Casting toNat of a nonnegative integer to the reals gives the
integer back. -/
theorem castToNat_eq (a : ℤ) (ha : 0 ≤ a) : ((a.toNat : ℕ) : ℝ) = (a : ℝ) := by
  exact_mod_cast Int.toNat_of_nonneg ha

/-- For positive rational coefficients, comparing p ln x against q ln y
is the same as comparing the natural powers obtained by clearing the
rational denominators into the exponents. -/
theorem ratMul_log_le_iff (p q : ℚ) (x y : ℕ) (hp : 0 < p) (hq : 0 < q)
    (hx : 1 ≤ x) (hy : 1 ≤ y) :
    (p:ℝ) * Real.log x ≤ (q:ℝ) * Real.log y ↔
      x ^ (p.num.toNat * q.den) ≤ y ^ (q.num.toNat * p.den) := by
  rw [natPow_le_iff_log _ _ _ _ hx hy]
  have hpn : (0:ℤ) < p.num := Rat.num_pos.2 hp
  have hqn : (0:ℤ) < q.num := Rat.num_pos.2 hq
  have hpd : (0:ℝ) < (p.den:ℝ) := by exact_mod_cast p.den_pos
  have hqd : (0:ℝ) < (q.den:ℝ) := by exact_mod_cast q.den_pos
  rw [show ((p.num.toNat * q.den : ℕ) : ℝ) = (p.num : ℝ) * q.den by
        push_cast; rw [castToNat_eq _ hpn.le],
      show ((q.num.toNat * p.den : ℕ) : ℝ) = (q.num : ℝ) * p.den by
        push_cast; rw [castToNat_eq _ hqn.le],
      Rat.cast_def, Rat.cast_def]
  rw [div_mul_eq_mul_div, div_mul_eq_mul_div, div_le_div_iff₀ hpd hqd]
  constructor <;> intro h <;> nlinarith [h]

/-- The logarithm of cnt + 1 is positive for a nonempty group. -/
theorem log_nbase_pos (st : SubjStat) (h : st.cnt ≠ 0) :
    0 < Real.log ((nbase st : ℕ) : ℝ) := by
  apply Real.log_pos
  unfold nbase
  exact_mod_cast (by omega : 1 < st.cnt + 1)

/-- The weighted score vanishes on an empty group or a zero mean. -/
theorem weight_zero_of (st : SubjStat) (h : st.cnt = 0 ∨ st.avg = 0) :
    weight st = 0 := by
  unfold weight nbase
  rcases h with h | h
  · simp [h, Real.log_one]
  · simp [h]

/-- The weighted score is positive exactly for a nonempty group with
positive mean. -/
theorem weight_pos_iff (st : SubjStat) : 0 < weight st ↔ st.cnt ≠ 0 ∧ 0 < st.avg := by
  constructor
  · intro hw
    rcases eq_or_ne st.cnt 0 with h | h
    · rw [weight_zero_of st (Or.inl h)] at hw; exact absurd hw (lt_irrefl 0)
    · refine ⟨h, ?_⟩
      by_contra hneg
      push_neg at hneg
      have h1 : (st.avg : ℝ) ≤ 0 := by exact_mod_cast hneg
      have h2 := log_nbase_pos st h
      unfold weight at hw
      nlinarith
  · rintro ⟨h, hpos⟩
    have h1 : (0:ℝ) < (st.avg : ℝ) := by exact_mod_cast hpos
    have h2 := log_nbase_pos st h
    unfold weight
    positivity

/-- The weighted score is negative exactly for a nonempty group with
negative mean. -/
theorem weight_neg_iff (st : SubjStat) : weight st < 0 ↔ st.cnt ≠ 0 ∧ st.avg < 0 := by
  constructor
  · intro hw
    rcases eq_or_ne st.cnt 0 with h | h
    · rw [weight_zero_of st (Or.inl h)] at hw; exact absurd hw (lt_irrefl 0)
    · refine ⟨h, ?_⟩
      by_contra hneg
      push_neg at hneg
      have h1 : (0:ℝ) ≤ (st.avg : ℝ) := by exact_mod_cast hneg
      have h2 := log_nbase_pos st h
      unfold weight at hw
      nlinarith
  · rintro ⟨h, hneg⟩
    have h1 : (st.avg : ℝ) < 0 := by exact_mod_cast hneg
    have h2 := log_nbase_pos st h
    unfold weight
    exact mul_neg_of_neg_of_pos h1 h2

/-- The computed sign agrees with the sign of the real weighted score. -/
theorem wsign_cases (st : SubjStat) :
    (wsign st = 1 ∧ 0 < weight st) ∨ (wsign st = -1 ∧ weight st < 0) ∨
      (wsign st = 0 ∧ weight st = 0) := by
  unfold wsign
  rcases eq_or_ne st.cnt 0 with h | h
  · exact Or.inr (Or.inr (by simp [h, weight_zero_of st (Or.inl h)]))
  · rcases lt_trichotomy st.avg 0 with ha | ha | ha
    · refine Or.inr (Or.inl ⟨by simp [h, ha, not_lt.2 ha.le], (weight_neg_iff st).2 ⟨h, ha⟩⟩)
    · exact Or.inr (Or.inr ⟨by simp [h, ha], weight_zero_of st (Or.inr ha)⟩)
    · exact Or.inl ⟨by simp [h, ha], (weight_pos_iff st).2 ⟨h, ha⟩⟩

/-- The computed sign takes one of the three values. -/
theorem wsign_trichotomy (st : SubjStat) : wsign st = 1 ∨ wsign st = -1 ∨ wsign st = 0 := by
  rcases wsign_cases st with ⟨h, _⟩ | ⟨h, _⟩ | ⟨h, _⟩
  · exact Or.inl h
  · exact Or.inr (Or.inl h)
  · exact Or.inr (Or.inr h)

/-- Inversion for sign one. -/
theorem wsign_eq_one (st : SubjStat) (h : wsign st = 1) : st.cnt ≠ 0 ∧ 0 < st.avg := by
  rcases wsign_cases st with ⟨h1, hw⟩ | ⟨h1, hw⟩ | ⟨h1, hw⟩
  · exact (weight_pos_iff st).1 hw
  · omega
  · omega

/-- Inversion for sign minus one. -/
theorem wsign_eq_negone (st : SubjStat) (h : wsign st = -1) : st.cnt ≠ 0 ∧ st.avg < 0 := by
  rcases wsign_cases st with ⟨h1, hw⟩ | ⟨h1, hw⟩ | ⟨h1, hw⟩
  · omega
  · exact (weight_neg_iff st).1 hw
  · omega

/-- A zero computed sign forces a zero weighted score. -/
theorem weight_of_wsign_zero (st : SubjStat) (h : wsign st = 0) : weight st = 0 := by
  rcases wsign_cases st with ⟨h1, _⟩ | ⟨h1, _⟩ | ⟨_, h2⟩
  · rw [h] at h1; exact absurd h1 (by norm_num)
  · rw [h] at h1; exact absurd h1 (by norm_num)
  · exact h2

/-- A strictly smaller computed sign forces a strictly smaller weighted
score. -/
theorem weight_lt_of_wsign_lt {a b : SubjStat} (h : wsign b < wsign a) :
    weight b < weight a := by
  rcases wsign_cases a with ⟨ha, hwa⟩ | ⟨ha, hwa⟩ | ⟨ha, hwa⟩ <;>
    rcases wsign_cases b with ⟨hb, hwb⟩ | ⟨hb, hwb⟩ | ⟨hb, hwb⟩ <;>
    rw [ha, hb] at h <;> first | omega | linarith

/-- Bridge theorem: the exact boolean comparator of the embedding agrees
with the real-number comparison of the weighted scores
avg * ln(cnt + 1) that the source computes in floating point. -/
theorem wge_iff (a b : SubjStat) : wge a b = true ↔ weight b ≤ weight a := by
  unfold wge
  split_ifs with h1 h2 h3 h4
  · exact iff_of_true rfl (weight_lt_of_wsign_lt h1).le
  · exact iff_of_false (by simp) (not_le.2 (weight_lt_of_wsign_lt h2))
  · have hba : wsign b = 1 := by omega
    obtain ⟨ha0, hap⟩ := wsign_eq_one a h3
    obtain ⟨hb0, hbp⟩ := wsign_eq_one b hba
    rw [decide_eq_true_eq]
    have key := ratMul_log_le_iff b.avg a.avg (nbase b) (nbase a) hbp hap
      (by unfold nbase; omega) (by unfold nbase; omega)
    unfold weight
    exact key.symm
  · have hba : wsign b = -1 := by omega
    obtain ⟨ha0, han⟩ := wsign_eq_negone a h4
    obtain ⟨hb0, hbn⟩ := wsign_eq_negone b hba
    rw [decide_eq_true_eq]
    have key := ratMul_log_le_iff (-a.avg) (-b.avg) (nbase a) (nbase b)
      (by linarith) (by linarith) (by unfold nbase; omega) (by unfold nbase; omega)
    rw [show ((-a.avg : ℚ):ℝ) = -((a.avg : ℚ):ℝ) by push_cast; ring,
        show ((-b.avg : ℚ):ℝ) = -((b.avg : ℚ):ℝ) by push_cast; ring] at key
    refine key.symm.trans ?_
    unfold weight
    constructor
    · intro h
      rw [neg_mul, neg_mul] at h
      linarith
    · intro h
      rw [neg_mul, neg_mul]
      linarith
  · have hsa : wsign a = 0 := by
      rcases wsign_trichotomy a with h | h | h
      · exact absurd h h3
      · exact absurd h h4
      · exact h
    have hsb : wsign b = 0 := by omega
    rw [weight_of_wsign_zero a hsa, weight_of_wsign_zero b hsb]
    exact iff_of_true rfl le_rfl

instance : IsTotal SubjStat wrel :=
  ⟨fun a b => by
    rcases le_total (weight b) (weight a) with h | h
    · exact Or.inl ((wge_iff a b).2 h)
    · exact Or.inr ((wge_iff b a).2 h)⟩

instance : IsTrans SubjStat wrel :=
  ⟨fun a b c hab hbc => (wge_iff a c).2 (le_trans ((wge_iff b c).1 hbc) ((wge_iff a b).1 hab))⟩

/-- The subject ranking is sorted by descending real weighted score. -/
theorem ranking_sorted (records : List AcademicRecord) :
    List.Sorted (fun a b => weight b ≤ weight a) (ranking records) := by
  have h := List.sorted_insertionSort wrel (subjectStats records)
  exact h.imp (fun hab => (wge_iff _ _).1 hab)

/-- On a column whose entries are all the same key, the deduplication
helper returns that single key, or nothing when the key was already
seen. -/
theorem uniqAux_all_eq (s : String) (l : List String) (h : ∀ x ∈ l, x = s) :
    ∀ seen : List String, uniqAux seen l = if s ∈ seen ∨ l = [] then [] else [s] := by
  induction l with
  | nil => intro seen; simp [uniqAux]
  | cons x xs ih =>
    intro seen
    have hx : x = s := h x (List.mem_cons_self x xs)
    subst hx
    have hxs : ∀ y ∈ xs, y = x := fun y hy => h y (List.mem_cons_of_mem x hy)
    unfold uniqAux
    by_cases hseen : x ∈ seen
    · rw [if_pos hseen, ih hxs seen]
      simp [hseen]
    · rw [if_neg hseen, ih hxs (x :: seen)]
      simp [hseen]

/-- A nonempty history with a single subject yields that subject as the
only group key. -/
theorem subjectsOf_single (records : List AcademicRecord) (s : String)
    (hne : records ≠ []) (h : ∀ r ∈ records, r.subject = s) :
    subjectsOf records = [s] := by
  unfold subjectsOf uniq
  rw [uniqAux_all_eq s _ (by simpa using h) []]
  simp [hne]

/-- A nonempty single-subject history reports that subject both as the
only strength and as the only weakness. -/
theorem single_subject_strengths (records : List AcademicRecord) (s : String)
    (hne : records ≠ []) (h : ∀ r ∈ records, r.subject = s) :
    strengths records = [s] ∧ weaknesses records = [s] := by
  have hs := subjectsOf_single records s hne h
  unfold strengths weaknesses ranking subjectStats
  rw [hs]
  simp [List.insertionSort, List.orderedInsert, firstN, lastN]

/-- The aggregation rows of the weighted-ranking example. -/
theorem statsWeighted_eq : subjectStats recsWeighted = [⟨"A", 80, 10⟩, ⟨"B", 85, 1⟩] := by
  simp [subjectStats, subjectsOf, uniq, uniqAux, recsWeighted, rec0,
    subjMean, subjScores, mean, List.filter_cons, List.filter_nil]
  norm_num

/-- The aggregation rows of the three-subject example. -/
theorem statsThreeSubj_eq :
    subjectStats recsThreeSubj = [⟨"a", 90, 1⟩, ⟨"b", 50, 1⟩, ⟨"c", 10, 1⟩] := by
  simp [subjectStats, subjectsOf, uniq, uniqAux, recsThreeSubj, rec0,
    subjMean, subjScores, mean, List.filter_cons, List.filter_nil]

/-- C1: for an empty list of academic records analyze_academic_history
returns exactly the documented default profile (average_score 50.0,
improvement_rate 0.0, empty strengths and weaknesses, both trends
stable, optimal difficulty medium, recommended_level 2, no learning
gaps); the function is total, so it never raises on empty input. -/
theorem claim_C1 :
    analyze_academic_history [] = default_profile ∧
    (analyze_academic_history []).average_score = 50 ∧
    (analyze_academic_history []).improvement_rate = 0 ∧
    (analyze_academic_history []).strengths = [] ∧
    (analyze_academic_history []).weaknesses = [] ∧
    (analyze_academic_history []).recent_trend = "stable" ∧
    (analyze_academic_history []).overall_trend = "stable" ∧
    (analyze_academic_history []).optimal_difficulty = "medium" ∧
    (analyze_academic_history []).recommended_level = 2 ∧
    (analyze_academic_history []).learning_gaps = [] :=
  ⟨rfl, rfl, rfl, rfl, rfl, rfl, rfl, rfl, rfl, rfl⟩

/-- C2: the recommended level follows the three-branch heuristic with
floor semantics (the Python int() truncation coincides with floor on the
nonnegative arguments of both branches), and the three spot checks hold:
recent performance 90 with improvement rate 5 gives level 4, recent
performance 72 gives 2, recent performance 50 gives 1. -/
theorem claim_C2 :
    (∀ records, recommend_difficulty_level records =
      (if 85 ≤ recent_performance records ∧ 0 < calculate_improvement_rate records then
        min 5 (⌊(recent_performance records - 60) / 10⌋ + 1)
      else if 70 ≤ recent_performance records then
        max 2 ⌊(recent_performance records - 50) / 15⌋
      else 1)) ∧
    recent_performance recsLevel4 = 90 ∧ calculate_improvement_rate recsLevel4 = 5 ∧
    recommend_difficulty_level recsLevel4 = 4 ∧
    recent_performance recsLevel2 = 72 ∧ recommend_difficulty_level recsLevel2 = 2 ∧
    recent_performance recsLevel1 = 50 ∧ recommend_difficulty_level recsLevel1 = 1 := by
  refine ⟨?_, ?_, ?_, ?_, ?_, ?_, ?_, ?_⟩
  · intro records
    simp only [recommend_difficulty_level]
    split_ifs with h1 h2
    · have h0 : (0:ℚ) ≤ (recent_performance records - 60) / 10 :=
        div_nonneg (by linarith [h1.1]) (by norm_num)
      unfold pytrunc
      rw [if_pos h0]
    · have h0 : (0:ℚ) ≤ (recent_performance records - 50) / 15 :=
        div_nonneg (by linarith [h2]) (by norm_num)
      unfold pytrunc
      rw [if_pos h0]
    · rfl
  · norm_num [recent_performance, recsLevel4, rec0, lastN, scoresOf, mean]
  · norm_num [calculate_improvement_rate, recsLevel4, rec0, sortByDate,
      List.insertionSort, List.orderedInsert, lastN, firstN, scoresOf, mean]
  · norm_num [recommend_difficulty_level, recent_performance, calculate_improvement_rate,
      recsLevel4, rec0, sortByDate, List.insertionSort, List.orderedInsert,
      lastN, firstN, scoresOf, mean, pytrunc]
  · norm_num [recent_performance, recsLevel2, rec0, lastN, scoresOf, mean]
  · norm_num [recommend_difficulty_level, recent_performance, calculate_improvement_rate,
      recsLevel2, rec0, sortByDate, List.insertionSort, List.orderedInsert,
      lastN, firstN, scoresOf, mean, pytrunc]
  · norm_num [recent_performance, recsLevel1, rec0, scoresOf, mean]
  · norm_num [recommend_difficulty_level, recent_performance, calculate_improvement_rate,
      recsLevel1, rec0, scoresOf, mean, pytrunc]

/-- C3 counterexample: on six records supplied in reverse date order the
code computes recent performance 0, the mean of the last five rows in
supplied order, while the mean of the last five records in time order is
20; so recent performance does depend on the supplied order and is not
the time-ordered tail mean. -/
theorem claim_C3_counterexample :
    recent_performance recsOutOfOrder = 0 ∧
    mean (scoresOf (lastN 5 (sortByDate recsOutOfOrder))) = 20 ∧
    recent_performance recsOutOfOrder ≠
      mean (scoresOf (lastN 5 (sortByDate recsOutOfOrder))) := by
  have h1 : recent_performance recsOutOfOrder = 0 := by
    norm_num [recent_performance, recsOutOfOrder, rec0, lastN, scoresOf, mean]
  have h2 : mean (scoresOf (lastN 5 (sortByDate recsOutOfOrder))) = 20 := by
    norm_num [recsOutOfOrder, rec0, sortByDate, List.insertionSort,
      List.orderedInsert, lastN, scoresOf, mean]
  refine ⟨h1, h2, ?_⟩
  rw [h1, h2]
  norm_num

/-- C3 as amended: for a nonempty history the recent_performance field of
the profile is the mean of the last five records in the order supplied
(no sort by assessment_date is applied first), or the mean of all scores
when fewer than five records exist. -/
theorem claim_C3 :
    ∀ records, records ≠ [] →
      (analyze_academic_history records).recent_performance =
        some (if 5 ≤ records.length then mean (scoresOf (lastN 5 records))
          else mean (scoresOf records)) := by
  intro records h
  unfold analyze_academic_history
  rw [if_neg h]
  rfl

/-- C3 witness: the amended statement applied to the out-of-order list. -/
theorem claim_C3_witness :
    (analyze_academic_history recsOutOfOrder).recent_performance =
      some (if 5 ≤ recsOutOfOrder.length then mean (scoresOf (lastN 5 recsOutOfOrder))
        else mean (scoresOf recsOutOfOrder)) :=
  claim_C3 recsOutOfOrder (by simp [recsOutOfOrder])

/-- C4 counterexample: with three subjects a, b, c of weighted scores
90 ln 2, 50 ln 2 and 10 ln 2 the weaknesses list is the tail of the
descending ranking, still in descending order, so the worst subject c
comes last even though its weighted score is strictly below that of b;
the claim that the weaknesses list is ordered worst weighted-score first
is false. -/
theorem claim_C4_counterexample :
    subjectStats recsThreeSubj = [⟨"a", 90, 1⟩, ⟨"b", 50, 1⟩, ⟨"c", 10, 1⟩] ∧
    weaknesses recsThreeSubj = ["b", "c"] ∧
    weight ⟨"c", 10, 1⟩ < weight ⟨"b", 50, 1⟩ ∧
    weaknesses recsThreeSubj ≠ ["c", "b"] := by
  have h := statsThreeSubj_eq
  have hw : weaknesses recsThreeSubj = ["b", "c"] := by
    unfold weaknesses ranking
    rw [h]
    simp [List.insertionSort, List.orderedInsert, wrel, wge, wsign, nbase, lastN,
      Int.toNat]
  refine ⟨h, hw, ?_, by rw [hw]; simp⟩
  unfold weight nbase
  have hl : (0:ℝ) < Real.log ((2:ℕ):ℝ) := Real.log_pos (by norm_num)
  have hc : ((10:ℚ):ℝ) < ((50:ℚ):ℝ) := by norm_num
  nlinarith

/-- C4 as amended: the subject ranking is sorted by descending weighted
score avg * ln(cnt + 1); the strengths list is its first three entries,
best weighted score first, and the weaknesses list is its last two
entries kept in the same descending order, so the worst subject comes
last; in particular subject A with mean 80 over 10 records precedes
subject B with mean 85 over a single record in the strengths order,
because 85 ln 2 < 80 ln 11. -/
theorem claim_C4 :
    (∀ records, List.Sorted (fun a b => weight b ≤ weight a) (ranking records)) ∧
    (∀ records, strengths records = (firstN 3 (ranking records)).map (·.subject)) ∧
    (∀ records, weaknesses records = (lastN 2 (ranking records)).map (·.subject)) ∧
    strengths recsWeighted = ["A", "B"] ∧
    weight ⟨"B", 85, 1⟩ < weight ⟨"A", 80, 10⟩ := by
  refine ⟨ranking_sorted, fun _ => rfl, fun _ => rfl, ?_, ?_⟩
  · have h := statsWeighted_eq
    unfold strengths ranking
    rw [h]
    norm_num [List.insertionSort, List.orderedInsert, wrel, wge, wsign, nbase,
      firstN, Int.toNat]
  · have h : ¬ (wge ⟨"B", 85, 1⟩ ⟨"A", 80, 10⟩ = true) := by
      norm_num [wge, wsign, nbase, Int.toNat]
    rw [wge_iff] at h
    exact not_le.1 h

/-- C5: trend classification applies the least-squares slope over
x = 0..n-1 with thresholds +2 and -2, a single record is stable, and the
three spot checks hold with slopes 0, 10 and -10. -/
theorem claim_C5 :
    (∀ ys : List ℚ, calculate_trend ys =
      (if ys.length < 2 then "stable"
      else if 2 < fitSlope ys then "improving"
      else if fitSlope ys < -2 then "declining"
      else "stable")) ∧
    (∀ y : ℚ, calculate_trend [y] = "stable") ∧
    fitSlope [50, 50, 50, 50, 50] = 0 ∧ calculate_trend [50, 50, 50, 50, 50] = "stable" ∧
    fitSlope [40, 50, 60, 70, 80] = 10 ∧ calculate_trend [40, 50, 60, 70, 80] = "improving" ∧
    fitSlope [80, 70, 60, 50, 40] = -10 ∧ calculate_trend [80, 70, 60, 50, 40] = "declining" := by
  refine ⟨fun _ => rfl, fun _ => rfl, ?_, ?_, ?_, ?_, ?_, ?_⟩ <;>
    norm_num [calculate_trend, fitSlope, List.range, List.range.loop]

/-- C6: the improvement rate of a history with at least two records is
the date-sorted tail-5 mean minus the date-sorted head-5 mean divided by
max(head-5 mean, 1), and a history with fewer than two records (in
particular exactly one record) has improvement rate 0. -/
theorem claim_C6 :
    (∀ records, calculate_improvement_rate records =
      (if 2 ≤ records.length then
        (mean (scoresOf (lastN 5 (sortByDate records))) -
            mean (scoresOf (firstN 5 (sortByDate records)))) /
          max (mean (scoresOf (firstN 5 (sortByDate records)))) 1
      else 0)) ∧
    calculate_improvement_rate recsLevel1 = 0 ∧
    (analyze_academic_history recsLevel4).improvement_rate = 5 := by
  refine ⟨?_, rfl, ?_⟩
  · intro records
    simp only [calculate_improvement_rate]
    split_ifs with h1 h2
    · omega
    · rfl
    · rfl
    · omega
  · show calculate_improvement_rate recsLevel4 = 5
    norm_num [calculate_improvement_rate, recsLevel4, rec0, sortByDate,
      List.insertionSort, List.orderedInsert, lastN, firstN, scoresOf, mean]

/-- C7: the code violates the documented 1..5 range of the recommended
level.  A single well-formed record (score 140 of max_score 200) gives
recent performance 140 and improvement rate 0, so the second branch
returns max(2, int(90 / 15)) = 6, outside 1..5, contradicting the
docstring of _recommend_difficulty_level. -/
theorem claim_C7 :
    0 ≤ recHighScale.score ∧ recHighScale.score ≤ recHighScale.max_score ∧
    0 < recHighScale.max_score ∧
    recommend_difficulty_level [recHighScale] = 6 ∧
    ¬ recommend_difficulty_level [recHighScale] ≤ 5 := by
  refine ⟨by norm_num [recHighScale], by norm_num [recHighScale], by norm_num [recHighScale],
    ?_, ?_⟩ <;>
    norm_num [recommend_difficulty_level, recent_performance, calculate_improvement_rate,
      recHighScale, lastN, firstN, scoresOf, mean, pytrunc]

/-- C8: whatever the question type and learning style, a complex question
from a student below level 70 always yields a strategy with step-by-step
explanation style and analogies, because the complexity escalation is
applied after the type-based and style-based overrides. -/
theorem claim_C8 :
    ∀ (qa : QuestionAnalysis) (profile : DoubtStudentProfile),
      qa.complexity_level = "complex" → profile.current_level < 70 →
      (determine_response_strategy qa profile).explanation_style = "step_by_step" ∧
        (determine_response_strategy qa profile).use_analogies = true := by
  intro qa profile h1 h2
  simp only [determine_response_strategy]
  rw [if_pos ⟨h1, h2⟩]
  exact ⟨rfl, rfl⟩

/-- C8 witness: the escalation on a concrete procedure question from a
visual learner at level 50. -/
theorem claim_C8_witness :
    (determine_response_strategy qaComplex weakProfile).explanation_style = "step_by_step" ∧
      (determine_response_strategy qaComplex weakProfile).use_analogies = true :=
  claim_C8 qaComplex weakProfile rfl (by norm_num [weakProfile])

/-- C9: the consistency score is max(0, 100 - std) whenever the standard
deviation is defined (at least two records) and lies within [0, 100] for
every record list, including a single record, where pandas std is NaN and
the Python max evaluates to 0. -/
theorem claim_C9 :
    ∀ records,
      (2 ≤ records.length → calculate_consistency records = max 0 (100 - score_std records)) ∧
      0 ≤ calculate_consistency records ∧ calculate_consistency records ≤ 100 := by
  intro records
  unfold calculate_consistency
  split_ifs with h
  · exact ⟨fun h2 => by omega, le_refl 0, by norm_num⟩
  · refine ⟨fun _ => rfl, le_max_left 0 _, ?_⟩
    have hs : 0 ≤ score_std records := Real.sqrt_nonneg _
    apply max_le (by norm_num)
    linarith

/-- C9 witness: the formula instantiated on a two-record history. -/
theorem claim_C9_witness :
    calculate_consistency recsPair = max 0 (100 - score_std recsPair) :=
  (claim_C9 recsPair).1 (by norm_num [recsPair])

/-- C10: the strengths list is the top three positions of the ranking
and the weaknesses list the bottom two positions of the same ranking, so
their lengths are at most 3 and 2; with a single distinct subject both
lists collapse to that one subject, which is reported simultaneously as
a strength and as a weakness. -/
theorem claim_C10 :
    (∀ records, (strengths records).length ≤ 3 ∧ (weaknesses records).length ≤ 2) ∧
    (∀ (records : List AcademicRecord) (s : String), records ≠ [] →
      (∀ r ∈ records, r.subject = s) →
      strengths records = [s] ∧ weaknesses records = [s]) := by
  constructor
  · intro records
    constructor
    · simp [strengths, firstN]
    · simp only [weaknesses, lastN, List.length_map, List.length_drop]
      omega
  · exact fun records s hne h => single_subject_strengths records s hne h

/-- C10 witness: two records of the single subject s give strengths and
weaknesses both equal to that subject. -/
theorem claim_C10_witness :
    strengths recsOneSubj = ["s"] ∧ weaknesses recsOneSubj = ["s"] :=
  claim_C10.2 recsOneSubj "s" (by simp [recsOneSubj]) (by decide)
